import Mathlib

/-!
Verification of the OpenID consumer core of the `velruse` repository
(`velruse/providers/openidconsumer.py`), shallowly embedded in Lean.

Python strings are `String`, Python `None`-able strings are `Option String`,
Python dicts are association lists, and Python truthiness is made explicit.
A Python function that can raise on some inputs returns an `Option`.
-/

/-- Association-list lookup: the value of the first entry whose key equals `k`
(the semantics of Python `dict` access on the dicts the source builds, which
never carry a duplicated key). -/
def alookup {α : Type} (l : List (String × α)) (k : String) : Option α :=
  match l with
  | [] => Option.none
  | kv :: rest => if kv.1 = k then Option.some kv.2 else alookup rest k

/-- Membership of a string in a list of strings (Python `in` on a key set). -/
def elemStr (l : List String) (s : String) : Bool :=
  match l with
  | [] => false
  | x :: rest => if x = s then true else elemStr rest s

/-- Python truthiness of a string: non-empty. -/
def strTruthy (s : String) : Bool :=
  !s.data.isEmpty

/-- Python truthiness of an optional string: not `None` and non-empty. -/
def otruthy : Option String → Bool
  | Option.none => false
  | Option.some s => strTruthy s

/-- Does `hay` start with `needle` (character lists)? -/
def charsStartWith (needle hay : List Char) : Bool :=
  match needle, hay with
  | [], _ => true
  | _ :: _, [] => false
  | n :: ns, h :: hs => if n = h then charsStartWith ns hs else false

/-- Does `hay` contain `needle` as a contiguous run (character lists)? -/
def charsContain (needle hay : List Char) : Bool :=
  match hay with
  | [] => charsStartWith needle []
  | _ :: hs => charsStartWith needle hay || charsContain needle hs

/-- Python `needle in hay` on strings. -/
def strContains (hay needle : String) : Bool :=
  charsContain needle.data hay.data

/-- Python whitespace characters stripped by `str.strip()` (ASCII range). -/
def isPySpace (c : Char) : Bool :=
  c == ' ' || c == '\t' || c == '\n' || c == '\x0b' || c == '\x0c' || c == '\r'

/-- Python `str.strip()`. -/
def pyStrip (s : String) : String :=
  String.mk (((s.data.dropWhile isPySpace).reverse.dropWhile isPySpace).reverse)

/-- Helper for `joinSpace`: interleave a single space between the chunks. -/
def spaceSep : List (List Char) → List Char
  | [] => []
  | [x] => x
  | x :: rest => x ++ ' ' :: spaceSep rest

/-- Python `' '.join(l)`. -/
def joinSpace (l : List String) : String :=
  String.mk (spaceSep (l.map String.data))

/-- Behaviour of `re.match('(^.*?)@', email).groups()[0]` (openidconsumer.py
line 90): `.` does not cross a newline, so the match succeeds exactly when an
`'@'` occurs before the first newline, and the captured group is the prefix
before the first `'@'`.  `Option.none` models the raised exception
(`TypeError` on a `None` email, `AttributeError` when the match fails). -/
def emailLocalPart (s : String) : Option String :=
  let t := s.data.takeWhile (fun c => c != '\n')
  if t.contains '@' then Option.some (String.mk (t.takeWhile (fun c => c != '@')))
  else Option.none

/-- A Python value as it appears in the normalizer's output dict. -/
inductive PyVal
  | null
  | str (s : String)
  | dict (m : List (String × PyVal))
  | list (l : List PyVal)

/-- Python truthiness of a `PyVal`. -/
def PyVal.truthy : PyVal → Bool
  | PyVal.null => false
  | PyVal.str s => strTruthy s
  | PyVal.dict m => !m.isEmpty
  | PyVal.list l => !l.isEmpty

/-- Inject an optional string into `PyVal` (`None` becomes `null`). -/
def optToPy : Option String → PyVal
  | Option.none => PyVal.null
  | Option.some s => PyVal.str s

/-- The logical attribute keys of the `ax_attributes` table (openidconsumer.py
lines 20-36).  The two honorific keys are `name_prefix` and `name_suffix` in
the source. -/
inductive AttrKey
  | nickname
  | email
  | full_name
  | birthday
  | gender
  | postal_code
  | country
  | timezone
  | language
  | namePre
  | first_name
  | last_name
  | middle_name
  | nameSuf
  | web
deriving DecidableEq

/-- The `ax_attributes` table: logical key to AX type URI (lines 20-36). -/
def ax_attributes : AttrKey → String
  | AttrKey.nickname => "http://axschema.org/namePerson/friendly"
  | AttrKey.email => "http://axschema.org/contact/email"
  | AttrKey.full_name => "http://axschema.org/namePerson"
  | AttrKey.birthday => "http://axschema.org/birthDate"
  | AttrKey.gender => "http://axschema.org/person/gender"
  | AttrKey.postal_code => "http://axschema.org/contact/postalCode/home"
  | AttrKey.country => "http://axschema.org/contact/country/home"
  | AttrKey.timezone => "http://axschema.org/pref/timezone"
  | AttrKey.language => "http://axschema.org/pref/language"
  | AttrKey.namePre => "http://axschema.org/namePerson/prefix"
  | AttrKey.first_name => "http://axschema.org/namePerson/first"
  | AttrKey.last_name => "http://axschema.org/namePerson/last"
  | AttrKey.middle_name => "http://axschema.org/namePerson/middle"
  | AttrKey.nameSuf => "http://axschema.org/namePerson/suffix"
  | AttrKey.web => "http://axschema.org/contact/web/default"

/-- The string name of a logical key, as used for the sreg lookup. -/
def sregName : AttrKey → String
  | AttrKey.nickname => "nickname"
  | AttrKey.email => "email"
  | AttrKey.full_name => "full_name"
  | AttrKey.birthday => "birthday"
  | AttrKey.gender => "gender"
  | AttrKey.postal_code => "postal_code"
  | AttrKey.country => "country"
  | AttrKey.timezone => "timezone"
  | AttrKey.language => "language"
  | AttrKey.namePre => "name_prefix"
  | AttrKey.first_name => "first_name"
  | AttrKey.last_name => "last_name"
  | AttrKey.middle_name => "middle_name"
  | AttrKey.nameSuf => "name_suffix"
  | AttrKey.web => "web"

/-- The `trans_dict` rename table, AX attribute names to sreg equivalents
(openidconsumer.py lines 39-43). -/
def trans_dict : List (String × String) :=
  [("full_name", "fullname"), ("birthday", "dob"), ("postal_code", "postcode")]

/-- Apply `trans_dict`: lines 59-60, `if key in trans_dict: key = trans_dict[key]`. -/
def transName (k : String) : String :=
  (alookup trans_dict k).getD k

/-- The recognized simple-registration field names: `sreg.data_fields` of the
protocol library (the fixed field set of the OpenID Simple Registration
extension), referenced at line 63. -/
def sreg_data_fields : List String :=
  ["nickname", "email", "fullname", "dob", "gender", "postcode",
   "country", "language", "timezone"]

/-- The `AttribAccess` object (lines 45-48): `sreg_resp or {}` and
`ax_resp or AXKeyValueMessage()` coalesce `None` to empty.  The AX response is
its URI-keyed key/value content (`getSingle` is `alookup` by type URI). -/
structure AttribAccess where
  sreg_resp : List (String × String)
  ax_resp : List (String × String)

/-- The `AttribAccess.__init__` coalescing of optional responses (lines 46-48). -/
def AttribAccess.ofOpt (s a : Option (List (String × String))) : AttribAccess :=
  ⟨s.getD [], a.getD []⟩

/-- `AttribAccess.get` (lines 50-66): probe AX first; a truthy AX value wins;
otherwise `None` for `ax_only` fields; otherwise translate the key through
`trans_dict` and look it up in the sreg response, but only when the translated
key is a recognized sreg field. -/
def AttribAccess.get (a : AttribAccess) (key : AttrKey) (ax_only : Bool) : Option String :=
  let v := alookup a.ax_resp (ax_attributes key)
  if otruthy v then v
  else if ax_only then Option.none
  else
    let k := transName (sregName key)
    if elemStr sreg_data_fields k then alookup a.sreg_resp k
    else Option.none

/-- The sreg fallback clause of `AttribAccess.get` (lines 58-66) on its own:
translate the name and consult the registration response only for recognized
field names. -/
def sregFallback (sr : List (String × String)) (key : AttrKey) : Option String :=
  if elemStr sreg_data_fields (transName (sregName key))
  then alookup sr (transName (sregName key))
  else Option.none

/-- The provider-name branch of `extract_openid_data` (lines 78-83). -/
def providerNameOf (identifier : String) : String :=
  if strContains identifier "google.com" then "Google"
  else if strContains identifier "yahoo.com" then "Yahoo"
  else "OpenID"

/-- The preferred-username branch (lines 86-92).  The outer `Option` is
`none` exactly when the Google branch raises (no email, or no usable `'@'`);
the inner `Option String` is the computed `ud['preferredUsername']` value,
which may itself be Python `None` (a missing nickname). -/
def preferredUsernameResult (pn : String) (a : AttribAccess) : Option (Option String) :=
  if pn = "Google" then
    match a.get AttrKey.email false with
    | Option.none => Option.none
    | Option.some email =>
      match emailLocalPart email with
      | Option.none => Option.none
      | Option.some u => Option.some (Option.some u)
  else Option.some (a.get AttrKey.nickname false)

/-- The `name_keys` list (line 100), in source order. -/
def name_keys : List AttrKey :=
  [AttrKey.namePre, AttrKey.first_name, AttrKey.middle_name,
   AttrKey.last_name, AttrKey.nameSuf]

/-- The `pcard_map` table (lines 101-102).  Only ever applied to `name_keys`. -/
def pcard_map : AttrKey → String
  | AttrKey.first_name => "givenName"
  | AttrKey.middle_name => "middleName"
  | AttrKey.last_name => "familyName"
  | AttrKey.namePre => "honorificPrefix"
  | AttrKey.nameSuf => "honorificSuffix"
  | _ => ""

/-- The name-part loop (lines 103-108): the truthy values of the `name_keys`
attributes, in order, paired with their key. -/
def collectedNameParts (a : AttribAccess) : List (AttrKey × String) :=
  name_keys.filterMap (fun p =>
    match a.get p false with
    | Option.some v => if strTruthy v then Option.some (p, v) else Option.none
    | Option.none => Option.none)

/-- The `full_name` computation (lines 109-111): space-join the collected
parts and strip; when that is empty fall back to the flat `full_name`
attribute (which may be `None`). -/
def formattedFullName (a : AttribAccess) : Option String :=
  let joined := pyStrip (joinSpace ((collectedNameParts a).map Prod.snd))
  if strTruthy joined then Option.some joined
  else a.get AttrKey.full_name false

/-- The `name` sub-dict (lines 99-113): one pcard entry per collected part,
plus `formatted` holding the (possibly `None`) full name. -/
def nameDict (a : AttribAccess) : List (String × PyVal) :=
  ((collectedNameParts a).map (fun pv => (pcard_map pv.1, PyVal.str pv.2)))
  ++ [("formatted", optToPy (formattedFullName a))]

/-- The conditional `verifiedEmail` entry (lines 94-96). -/
def verifiedSeg (pn : String) (a : AttribAccess) : List (String × PyVal) :=
  if pn = "Google" ∨ pn = "Yahoo" then
    [("verifiedEmail", optToPy (a.get AttrKey.email true))]
  else []

/-- The conditional `urls` entry (lines 118-120). -/
def urlsSeg (a : AttribAccess) : List (String × PyVal) :=
  match a.get AttrKey.web false with
  | Option.some u => if strTruthy u then [("urls", PyVal.list [PyVal.str u])] else []
  | Option.none => []

/-- The full `ud` dict of `extract_openid_data` just before the final
strip loop (lines 77-123), given the already-computed preferred username. -/
def udEntries (identifier : String) (a : AttribAccess) (pu : Option String) :
    List (String × PyVal) :=
  let pn := providerNameOf identifier
  let fn := formattedFullName a
  [("identifier", PyVal.str identifier),
   ("providerName", PyVal.str pn),
   ("preferredUsername", optToPy pu)]
  ++ verifiedSeg pn a
  ++ [("name", PyVal.dict (nameDict a)),
      ("displayName", optToPy (if otruthy fn then fn else pu))]
  ++ urlsSeg a
  ++ [("gender", optToPy (a.get AttrKey.gender false)),
      ("birthday", optToPy (a.get AttrKey.birthday false))]

/-- The strip loop (lines 125-128): remove the falsy-valued entries. -/
def stripEmpty : List (String × PyVal) → List (String × PyVal)
  | [] => []
  | kv :: rest => if kv.2.truthy then kv :: stripEmpty rest else stripEmpty rest

/-- `extract_openid_data` up to but excluding the strip loop; `Option.none`
models the exception raised in the Google preferred-username branch. -/
def build_ud (identifier : String) (sreg_resp ax_resp : Option (List (String × String))) :
    Option (List (String × PyVal)) :=
  let attribs := AttribAccess.ofOpt sreg_resp ax_resp
  (preferredUsernameResult (providerNameOf identifier) attribs).map
    (udEntries identifier attribs)

/-- `extract_openid_data` (openidconsumer.py lines 69-130). -/
def extract_openid_data (identifier : String)
    (sreg_resp ax_resp : Option (List (String × String))) :
    Option (List (String × PyVal)) :=
  (build_ud identifier sreg_resp ax_resp).map stripEmpty

/-- A response produced by the `OpenIDResponder` handlers. -/
inductive Response
  | errorRedirect (code : Nat) (end_point : String)
  | httpFound (location : String)
  | formBody (html : String)
  | autoSubmitForm (end_point : String) (token : String)
deriving DecidableEq

/-- Modelled from the spec: `_error_redirect` lives in `velruse/utils.py`,
which is absent from src/.  Per the spec's error redirect contract, every
error path redirects to the caller-provided end point carrying the numeric
error code and the original end point. -/
def error_redirect (code : Nat) (end_point : String) : Response :=
  Response.errorRedirect code end_point

/-- What the keyed storage collaborator holds: the per-attempt OpenID
protocol state blob (stored at login, opaque to this core), or a result
envelope (stored at process success under the minted token). -/
inductive StoredVal
  | attempt
  | result
deriving DecidableEq

/-- The state of the keyed storage collaborator (`UserStore`). -/
abbrev Storage := List (String × StoredVal)

/-- `storage.retrieve(key)`: `Option.none` also covers a falsy stored value,
matching the `if not openid_session` truthiness test at line 259. -/
def storage_retrieve (st : Storage) (k : String) : Option StoredVal :=
  alookup st k

/-- `storage.delete(key)`. -/
def storage_delete (st : Storage) (k : String) : Storage :=
  match st with
  | [] => []
  | kv :: rest =>
    if kv.1 = k then storage_delete rest k else kv :: storage_delete rest k

/-- `storage.store(key, value, expires)`: set the key.  Expiry is the
collaborator's concern and is not modelled beyond the call being recorded. -/
def storage_store (st : Storage) (k : String) (v : StoredVal) : Storage :=
  (k, v) :: storage_delete st k

/-- Outcome of `oidconsumer.begin(openid_url)` (line 220): a raised
`DiscoveryFailure`, a `None` authrequest, or an authrequest object with the
data the handler consumes (`shouldSendRedirect`, `redirectURL`, `htmlMarkup`). -/
inductive BeginResult
  | discoveryFailure
  | noRequest
  | authRequest (shouldRedirect : Bool) (redirectUrl : String) (html : String)

/-- `info.status` of `oidconsumer.complete` (line 264). -/
inductive CompleteStatus
  | failure
  | cancel
  | success
  | other
deriving DecidableEq

/-- The responder configuration (lines 144-150): `re.match(endpoint_regex, ·)`
is abstracted as a boolean predicate on the candidate end point. -/
structure OpenIDResponder where
  endpoint_regex : String → Bool
  realm : String

/-- The inputs `login` reads from the request: `req.POST['end_point']`,
`req.POST.get('openid_identifier')` and the caller's session id. -/
structure LoginRequest where
  end_point : String
  openid_identifier : Option String
  session_id : String

/-- A call made to the keyed storage collaborator. -/
inductive StorageOp
  | store (key : String) (expires : Nat)
  | delete (key : String)
deriving DecidableEq

/-- `OpenIDResponder.login` (lines 201-248).  The default
`_lookup_identifier` is the identity (line 167).  The result pairs the
response with the list of storage-collaborator calls the handler made. -/
def login (resp : OpenIDResponder) (req : LoginRequest) (br : BeginResult) :
    Response × List StorageOp :=
  if !otruthy req.openid_identifier || !resp.endpoint_regex req.end_point then
    (error_redirect 0 req.end_point, [])
  else
    match br with
    | BeginResult.discoveryFailure => (error_redirect 1 req.end_point, [])
    | BeginResult.noRequest => (error_redirect 1 req.end_point, [])
    | BeginResult.authRequest shouldRedirect url html =>
      if shouldRedirect then
        (Response.httpFound url, [StorageOp.store req.session_id 300])
      else
        (Response.formBody html, [StorageOp.store req.session_id 300])

/-- The outcome of one `process` call: the response, the storage state it
leaves behind, and the token it minted, if any. -/
structure ProcessResult where
  response : Response
  storage : Storage
  minted : Option String
deriving DecidableEq

/-- `OpenIDResponder.process` (lines 250-296).  `end_point` is the value read
from the caller's session; `status` is the outcome of `oidconsumer.complete`;
`token` is the fresh value of `utils.generate_token()` (external to src/,
taken as an input).  The success response is the auto-submitting form of
`utils.redirect_form`/`autoSubmitHTML`, modelled from the spec as carrying
the end point and the minted token. -/
def process (st : Storage) (session_id end_point : String)
    (status : CompleteStatus) (token : String) : ProcessResult :=
  match storage_retrieve st session_id with
  | Option.none => ⟨error_redirect 1 end_point, st, Option.none⟩
  | Option.some _ =>
    match status with
    | CompleteStatus.failure => ⟨error_redirect 2 end_point, st, Option.none⟩
    | CompleteStatus.cancel => ⟨error_redirect 2 end_point, st, Option.none⟩
    | CompleteStatus.success =>
      let st1 := storage_delete st session_id
      let st2 := storage_store st1 token StoredVal.result
      ⟨Response.autoSubmitForm end_point token, st2, Option.some token⟩
    | CompleteStatus.other => ⟨error_redirect 1 end_point, st, Option.none⟩

theorem mem_stripEmpty {kv : String × PyVal} {d : List (String × PyVal)} :
    kv ∈ stripEmpty d ↔ kv ∈ d ∧ PyVal.truthy kv.2 = true := by
  induction d with
  | nil => simp [stripEmpty]
  | cons hd tl ih =>
    by_cases h : PyVal.truthy hd.2 = true
    · simp only [stripEmpty, h, if_true, List.mem_cons, ih]
      constructor
      · rintro (rfl | ⟨h1, h2⟩)
        · exact ⟨Or.inl rfl, h⟩
        · exact ⟨Or.inr h1, h2⟩
      · rintro ⟨rfl | h1, h2⟩
        · exact Or.inl rfl
        · exact Or.inr ⟨h1, h2⟩
    · simp only [stripEmpty]
      rw [if_neg h, ih]
      constructor
      · rintro ⟨h1, h2⟩
        exact ⟨List.mem_cons_of_mem _ h1, h2⟩
      · rintro ⟨hm, h2⟩
        rcases List.mem_cons.1 hm with rfl | h1
        · exact absurd h2 h
        · exact ⟨h1, h2⟩

theorem stripEmpty_append (l1 l2 : List (String × PyVal)) :
    stripEmpty (l1 ++ l2) = stripEmpty l1 ++ stripEmpty l2 := by
  induction l1 with
  | nil => rfl
  | cons hd tl ih => by_cases h : PyVal.truthy hd.2 = true <;> simp [stripEmpty, h, ih]

theorem alookup_append {α : Type} (l1 l2 : List (String × α)) (k : String) :
    alookup (l1 ++ l2) k =
      match alookup l1 k with
      | Option.some v => Option.some v
      | Option.none => alookup l2 k := by
  induction l1 with
  | nil => simp [alookup]
  | cons hd tl ih => by_cases h : hd.1 = k <;> simp [alookup, h, ih]

theorem alookup_none_of_keys_ne {α : Type} {d : List (String × α)} {k : String}
    (h : ∀ kv, kv ∈ d → kv.1 ≠ k) : alookup d k = Option.none := by
  induction d with
  | nil => rfl
  | cons hd tl ih =>
    simp only [alookup]
    rw [if_neg (h hd (List.mem_cons_self hd tl))]
    exact ih (fun kv hm => h kv (List.mem_cons_of_mem _ hm))

theorem alookup_strip_skip {d1 d2 : List (String × PyVal)} {k : String}
    (h : ∀ kv, kv ∈ d1 → kv.1 ≠ k) :
    alookup (stripEmpty (d1 ++ d2)) k = alookup (stripEmpty d2) k := by
  rw [stripEmpty_append, alookup_append,
      alookup_none_of_keys_ne (fun kv hm => h kv (mem_stripEmpty.1 hm).1)]

theorem alookup_stripEmpty_cons (k0 : String) (v0 : PyVal)
    (rest : List (String × PyVal)) (k : String) :
    alookup (stripEmpty ((k0, v0) :: rest)) k =
      if k0 = k then
        (if PyVal.truthy v0 = true then Option.some v0
         else alookup (stripEmpty rest) k)
      else alookup (stripEmpty rest) k := by
  by_cases h0 : PyVal.truthy v0 = true <;> by_cases hk : k0 = k <;>
    simp [stripEmpty, alookup, h0, hk]

theorem alookup_mem {α : Type} {d : List (String × α)} {k : String} {v : α}
    (h : alookup d k = Option.some v) : (k, v) ∈ d := by
  induction d with
  | nil => exact absurd h (by simp [alookup])
  | cons hd tl ih =>
    by_cases hk : hd.1 = k
    · simp only [alookup, hk, if_true, Option.some.injEq] at h
      subst hk
      subst h
      exact List.mem_cons_self hd tl
    · simp only [alookup, hk, if_false] at h
      exact List.mem_cons_of_mem _ (ih h)

theorem storage_retrieve_delete_other (st : Storage) (k' k : String) (h : k' ≠ k) :
    storage_retrieve (storage_delete st k') k = storage_retrieve st k := by
  induction st with
  | nil => rfl
  | cons hd tl ih =>
    by_cases hh : hd.1 = k'
    · have hk : hd.1 ≠ k := by rw [hh]; exact h
      simp only [storage_delete, storage_retrieve, alookup, if_pos hh, if_neg hk]
      exact ih
    · simp only [storage_delete, if_neg hh, storage_retrieve, alookup]
      by_cases hk : hd.1 = k
      · rw [if_pos hk, if_pos hk]
      · rw [if_neg hk, if_neg hk]
        exact ih

theorem storage_retrieve_delete_self (st : Storage) (k : String) :
    storage_retrieve (storage_delete st k) k = Option.none := by
  induction st with
  | nil => rfl
  | cons hd tl ih =>
    by_cases h : hd.1 = k <;>
      simp [storage_delete, storage_retrieve, alookup, h] <;>
      simpa [storage_retrieve] using ih

/-- C1 (counterexample): the claim says the attempt record is deleted on the
failure path as well, and that after any completed `process` a second call
cannot mint a token.  On the concrete storage holding an attempt for session
`"s"`, a failure-path `process` leaves the record in place, and a subsequent
`process` call for the same session still mints a token. -/
theorem C1_counterexample :
    (process [("s", StoredVal.attempt)] "s" "e" CompleteStatus.failure "t").storage
      = [("s", StoredVal.attempt)]
    ∧ (process (process [("s", StoredVal.attempt)] "s" "e"
          CompleteStatus.failure "t").storage "s" "e" CompleteStatus.success "t2").minted
      = Option.some "t2" :=
  ⟨rfl, rfl⟩

/-- C1 (amended): the attempt record is consumed and deleted exactly once on
the success path only; after a successful `process`, a second `process` call
for the same session does not mint a token but fails as a missing-attempt
error redirect (code 1), provided the minted token key differs from the
session id.  The failure and cancel paths leave the record untouched. -/
theorem C1_success_consumes (st : Storage) (sid ep tok : String) (v : StoredVal)
    (h : storage_retrieve st sid = Option.some v) (hne : tok ≠ sid) :
    storage_retrieve (process st sid ep CompleteStatus.success tok).storage sid
      = Option.none
    ∧ (process st sid ep CompleteStatus.success tok).minted = Option.some tok
    ∧ (∀ ep2 status2 tok2,
        process (process st sid ep CompleteStatus.success tok).storage sid ep2 status2 tok2
          = ⟨error_redirect 1 ep2,
             (process st sid ep CompleteStatus.success tok).storage, Option.none⟩)
    ∧ (process st sid ep CompleteStatus.failure tok).storage = st
    ∧ (process st sid ep CompleteStatus.cancel tok).storage = st := by
  have hdel : storage_retrieve
      (storage_store (storage_delete st sid) tok StoredVal.result) sid = Option.none := by
    simp only [storage_store, storage_retrieve, alookup]
    rw [if_neg hne]
    calc alookup (storage_delete (storage_delete st sid) tok) sid
        = storage_retrieve (storage_delete st sid) sid :=
          storage_retrieve_delete_other _ _ _ hne
      _ = Option.none := storage_retrieve_delete_self st sid
  have hp : process st sid ep CompleteStatus.success tok
      = ⟨Response.autoSubmitForm ep tok,
         storage_store (storage_delete st sid) tok StoredVal.result,
         Option.some tok⟩ := by
    simp [process, h]
  refine ⟨?_, ?_, ?_, ?_, ?_⟩
  · rw [hp]
    exact hdel
  · rw [hp]
  · intro ep2 status2 tok2
    rw [hp]
    simp [process, hdel, error_redirect]
  · simp [process, h]
  · simp [process, h]

/-- C1 (witness): the amended behaviour at a concrete storage, session and
token. -/
theorem C1_witness :
    storage_retrieve (process [("s", StoredVal.attempt)] "s" "e"
        CompleteStatus.success "t").storage "s" = Option.none
    ∧ (process [("s", StoredVal.attempt)] "s" "e" CompleteStatus.success "t").minted
      = Option.some "t"
    ∧ process (process [("s", StoredVal.attempt)] "s" "e"
          CompleteStatus.success "t").storage "s" "e2" CompleteStatus.success "t2"
      = ⟨error_redirect 1 "e2",
         (process [("s", StoredVal.attempt)] "s" "e" CompleteStatus.success "t").storage,
         Option.none⟩ :=
  match C1_success_consumes [("s", StoredVal.attempt)] "s" "e" "t" StoredVal.attempt
      rfl (by decide) with
  | ⟨h1, h2, h3, _, _⟩ => ⟨h1, h2, h3 "e2" CompleteStatus.success "t2"⟩

/-- C4 (counterexample): the discovery-failure category at `login` and the
missing-attempt category at `process` both carry the numeric code 1, so two
errors from different categories do not always carry different codes. -/
theorem C4_counterexample :
    (login ⟨fun _ => true, "r"⟩ ⟨"e", Option.some "u", "s"⟩
        BeginResult.discoveryFailure).1 = Response.errorRedirect 1 "e"
    ∧ (process [] "s" "e" CompleteStatus.success "t").response
      = Response.errorRedirect 1 "e" :=
  ⟨rfl, rfl⟩

/-- C4 (amended): each of the four error categories is redirected to the
caller's end point carrying a numeric code — disallowed callback carries 0,
discovery failure 1, handshake failure/cancellation 2, missing attempt 1.
Codes 0 and 2 are distinct from every other category's code, but the
discovery-failure and missing-attempt categories share code 1. -/
theorem C4_error_codes
    (m1 m2 : String → Bool) (realm1 realm2 ep1 ep2 ep3 ep4 sid1 sid2 sid3 sid4 tok : String)
    (oid1 oid2 : Option String) (br : BeginResult)
    (st1 st2 : Storage) (v : StoredVal) (status : CompleteStatus)
    (hA : m1 ep1 = false)
    (hB1 : otruthy oid2 = true) (hB2 : m2 ep2 = true)
    (hC : storage_retrieve st1 sid3 = Option.some v)
    (hD : storage_retrieve st2 sid4 = Option.none) :
    (login ⟨m1, realm1⟩ ⟨ep1, oid1, sid1⟩ br).1 = Response.errorRedirect 0 ep1
    ∧ (login ⟨m2, realm2⟩ ⟨ep2, oid2, sid2⟩ BeginResult.discoveryFailure).1
      = Response.errorRedirect 1 ep2
    ∧ (process st1 sid3 ep3 CompleteStatus.failure tok).response
      = Response.errorRedirect 2 ep3
    ∧ (process st1 sid3 ep3 CompleteStatus.cancel tok).response
      = Response.errorRedirect 2 ep3
    ∧ (process st2 sid4 ep4 status tok).response = Response.errorRedirect 1 ep4
    ∧ (0 : Nat) ≠ 1 ∧ (0 : Nat) ≠ 2 ∧ (1 : Nat) ≠ 2 := by
  refine ⟨?_, ?_, ?_, ?_, ?_, by decide, by decide, by decide⟩
  · simp [login, hA, error_redirect]
  · simp [login, hB1, hB2, error_redirect]
  · simp [process, hC, error_redirect]
  · simp [process, hC, error_redirect]
  · simp [process, hD, error_redirect]

/-- C4 (witness): the amended code assignment at concrete inputs. -/
theorem C4_error_codes_witness :
    (login ⟨fun _ => false, "r"⟩ ⟨"e1", Option.some "u", "s1"⟩
        BeginResult.discoveryFailure).1 = Response.errorRedirect 0 "e1"
    ∧ (login ⟨fun _ => true, "r"⟩ ⟨"e2", Option.some "u", "s2"⟩
        BeginResult.discoveryFailure).1 = Response.errorRedirect 1 "e2"
    ∧ (process [("s3", StoredVal.attempt)] "s3" "e3" CompleteStatus.failure "t").response
      = Response.errorRedirect 2 "e3"
    ∧ (process [("s3", StoredVal.attempt)] "s3" "e3" CompleteStatus.cancel "t").response
      = Response.errorRedirect 2 "e3"
    ∧ (process [] "s4" "e4" CompleteStatus.other "t").response
      = Response.errorRedirect 1 "e4"
    ∧ (0 : Nat) ≠ 1 ∧ (0 : Nat) ≠ 2 ∧ (1 : Nat) ≠ 2 :=
  C4_error_codes (fun _ => false) (fun _ => true) "r" "r" "e1" "e2" "e3" "e4"
    "s1" "s2" "s3" "s4" "t" (Option.some "u") (Option.some "u")
    BeginResult.discoveryFailure [("s3", StoredVal.attempt)] [] StoredVal.attempt
    CompleteStatus.other rfl rfl rfl rfl rfl

/-- C7: a `login` whose `end_point` fails the configured allow-pattern
returns the categorized error redirect with code 0 and performs no storage
call at all (in particular, no attempt record is stored), while a discovery
failure on an otherwise valid request is redirected with code 1, distinct
from the validation-failure code. -/
theorem C7_invalid_endpoint (m1 m2 : String → Bool) (r1 r2 ep1 ep2 s1 s2 : String)
    (oid1 oid2 : Option String) (br : BeginResult)
    (h1 : m1 ep1 = false)
    (h2 : otruthy oid2 = true) (h3 : m2 ep2 = true) :
    login ⟨m1, r1⟩ ⟨ep1, oid1, s1⟩ br = (Response.errorRedirect 0 ep1, [])
    ∧ login ⟨m2, r2⟩ ⟨ep2, oid2, s2⟩ BeginResult.discoveryFailure
      = (Response.errorRedirect 1 ep2, [])
    ∧ (1 : Nat) ≠ 0 := by
  refine ⟨?_, ?_, by decide⟩
  · simp [login, h1, error_redirect]
  · simp [login, h2, h3, error_redirect]

/-- C7 (witness): the two login paths at concrete inputs. -/
theorem C7_invalid_endpoint_witness :
    login ⟨fun _ => false, "r"⟩ ⟨"e1", Option.some "u", "s1"⟩
        BeginResult.discoveryFailure = (Response.errorRedirect 0 "e1", [])
    ∧ login ⟨fun _ => true, "r"⟩ ⟨"e2", Option.some "u", "s2"⟩
        BeginResult.discoveryFailure = (Response.errorRedirect 1 "e2", [])
    ∧ (1 : Nat) ≠ 0 :=
  C7_invalid_endpoint (fun _ => false) (fun _ => true) "r" "r" "e1" "e2" "s1" "s2"
    (Option.some "u") (Option.some "u") BeginResult.discoveryFailure rfl rfl rfl

theorem pn_truthy (id : String) :
    PyVal.truthy (PyVal.str (providerNameOf id)) = true := by
  unfold providerNameOf
  split
  · decide
  · split
    · decide
    · decide

theorem providerNameOf_google_iff (id : String) :
    providerNameOf id = "Google" ↔ strContains id "google.com" = true := by
  unfold providerNameOf
  constructor
  · intro h
    by_contra hc
    rw [if_neg hc] at h
    by_cases hy : strContains id "yahoo.com" = true
    · rw [if_pos hy] at h
      exact absurd h (by decide)
    · rw [if_neg hy] at h
      exact absurd h (by decide)
  · intro h
    rw [if_pos h]

theorem preferredUsernameResult_none_iff (id : String) (A : AttribAccess) :
    preferredUsernameResult (providerNameOf id) A = Option.none
    ↔ (strContains id "google.com" = true
       ∧ (A.get AttrKey.email false).bind emailLocalPart = Option.none) := by
  unfold preferredUsernameResult
  by_cases hg : providerNameOf id = "Google"
  · rw [if_pos hg]
    cases he : A.get AttrKey.email false with
    | none => simp [(providerNameOf_google_iff id).1 hg, he]
    | some e =>
      cases hl : emailLocalPart e with
      | none => simp [(providerNameOf_google_iff id).1 hg, he, hl]
      | some u => simp [he, hl]
  · rw [if_neg hg]
    constructor
    · intro hcontra
      exact absurd hcontra (by simp)
    · rintro ⟨hc, -⟩
      exact absurd ((providerNameOf_google_iff id).2 hc) hg

theorem extract_eq_some_iff (id : String) (s a : Option (List (String × String)))
    (ud : List (String × PyVal)) :
    extract_openid_data id s a = Option.some ud
    ↔ ∃ pu, preferredUsernameResult (providerNameOf id) (AttribAccess.ofOpt s a)
          = Option.some pu
        ∧ ud = stripEmpty (udEntries id (AttribAccess.ofOpt s a) pu) := by
  rw [show extract_openid_data id s a
      = ((preferredUsernameResult (providerNameOf id) (AttribAccess.ofOpt s a)).map
          (udEntries id (AttribAccess.ofOpt s a))).map stripEmpty from rfl]
  cases hp : preferredUsernameResult (providerNameOf id) (AttribAccess.ofOpt s a) with
  | none => simp [hp]
  | some pu => simp [hp, eq_comm]

theorem verifiedSeg_keys {pn : String} {A : AttribAccess} {kv : String × PyVal}
    (h : kv ∈ verifiedSeg pn A) : kv.1 = "verifiedEmail" := by
  unfold verifiedSeg at h
  split at h
  · rcases List.mem_singleton.1 h with rfl
    rfl
  · exact absurd h (List.not_mem_nil kv)

theorem verifiedSeg_mem {pn : String} {A : AttribAccess} {kv : String × PyVal}
    (h : kv ∈ verifiedSeg pn A) :
    (pn = "Google" ∨ pn = "Yahoo")
    ∧ kv = ("verifiedEmail", optToPy (A.get AttrKey.email true)) := by
  unfold verifiedSeg at h
  split at h
  next hc => exact ⟨hc, List.mem_singleton.1 h⟩
  next => exact absurd h (List.not_mem_nil kv)

theorem urlsSeg_keys {A : AttribAccess} {kv : String × PyVal}
    (h : kv ∈ urlsSeg A) : kv.1 = "urls" := by
  unfold urlsSeg at h
  split at h
  next u =>
    split at h
    · rcases List.mem_singleton.1 h with rfl
      rfl
    · exact absurd h (List.not_mem_nil kv)
  next => exact absurd h (List.not_mem_nil kv)

theorem udEntries_mem_cases {id : String} {A : AttribAccess} {pu : Option String}
    {kv : String × PyVal} (h : kv ∈ udEntries id A pu) :
    kv = ("identifier", PyVal.str id)
    ∨ kv = ("providerName", PyVal.str (providerNameOf id))
    ∨ kv = ("preferredUsername", optToPy pu)
    ∨ kv ∈ verifiedSeg (providerNameOf id) A
    ∨ kv = ("name", PyVal.dict (nameDict A))
    ∨ kv = ("displayName",
        optToPy (if otruthy (formattedFullName A) then formattedFullName A else pu))
    ∨ kv ∈ urlsSeg A
    ∨ kv = ("gender", optToPy (A.get AttrKey.gender false))
    ∨ kv = ("birthday", optToPy (A.get AttrKey.birthday false)) := by
  simp only [udEntries, List.cons_append, List.nil_append, List.mem_cons,
    List.mem_append] at h
  tauto

theorem collectedNameParts_truthy {A : AttribAccess} {pv : AttrKey × String}
    (h : pv ∈ collectedNameParts A) : strTruthy pv.2 = true := by
  unfold collectedNameParts at h
  rcases List.mem_filterMap.1 h with ⟨p, _, hf⟩
  split at hf
  next v =>
    split at hf
    next ht =>
      rcases Option.some.inj hf with rfl
      exact ht
    next => exact Option.noConfusion hf
  next => exact Option.noConfusion hf

theorem urlsSeg_mem {A : AttribAccess} {kv : String × PyVal} (h : kv ∈ urlsSeg A) :
    ∃ u, kv = ("urls", PyVal.list [PyVal.str u]) := by
  unfold urlsSeg at h
  split at h
  · rename_i u hu
    split at h
    · exact ⟨u, List.mem_singleton.1 h⟩
    · exact absurd h (List.not_mem_nil kv)
  · exact absurd h (List.not_mem_nil kv)

theorem nameDict_mem {A : AttribAccess} {e : String × PyVal} (h : e ∈ nameDict A)
    (hne : e.1 ≠ "formatted") : PyVal.truthy e.2 = true := by
  unfold nameDict at h
  rcases List.mem_append.1 h with hm | hm
  · rcases List.mem_map.1 hm with ⟨pv, hpv, rfl⟩
    exact collectedNameParts_truthy hpv
  · rcases List.mem_singleton.1 hm with rfl
    exact absurd rfl hne

theorem optToPy_truthy {x : Option String} (h : PyVal.truthy (optToPy x) = true) :
    ∃ e, x = Option.some e ∧ strTruthy e = true := by
  cases x with
  | none => exact absurd h (by decide)
  | some e => exact ⟨e, rfl, h⟩

theorem optToPy_ne_dict (x : Option String) (m : List (String × PyVal)) :
    optToPy x ≠ PyVal.dict m := by
  cases x <;> simp [optToPy]

theorem get_ax_only_eq {A : AttribAccess} {k : AttrKey} {e : String}
    (h : A.get k true = Option.some e) :
    alookup A.ax_resp (ax_attributes k) = Option.some e := by
  unfold AttribAccess.get at h
  by_cases hv : otruthy (alookup A.ax_resp (ax_attributes k)) = true
  · rw [if_pos hv] at h
    exact h
  · rw [if_neg hv] at h
    simp at h

/-- C2 (counterexample): the claim says the normalizer raises no errors even
for an identifier containing `"google.com"` with no email attribute present;
on that very input (empty sreg and AX responses) the source raises, modelled
as `Option.none`. -/
theorem C2_counterexample :
    extract_openid_data "google.com" Option.none Option.none = Option.none
    ∧ strContains "google.com" "google.com" = true :=
  ⟨rfl, rfl⟩

/-- C2 (amended): the normalizer returns a profile mapping for every input
except exactly the flagged fragile case — it fails precisely when the
identifier contains `"google.com"` and the email attribute is absent or has
no usable local part before an `'@'`; in every other case (in particular for
every non-Google identifier) it returns a mapping, and absent source data
yields absent output fields rather than a failure. -/
theorem C2_google_email_fragility (id : String) (s a : Option (List (String × String))) :
    extract_openid_data id s a = Option.none
    ↔ (strContains id "google.com" = true
       ∧ ((AttribAccess.ofOpt s a).get AttrKey.email false).bind emailLocalPart
         = Option.none) := by
  rw [show extract_openid_data id s a
      = ((preferredUsernameResult (providerNameOf id) (AttribAccess.ofOpt s a)).map
          (udEntries id (AttribAccess.ofOpt s a))).map stripEmpty from rfl]
  rw [Option.map_eq_none', Option.map_eq_none']
  exact preferredUsernameResult_none_iff id (AttribAccess.ofOpt s a)

/-- C3 (counterexample): on an identifier with no attribute data at all, the
returned profile keeps the `name` sub-mapping whose `formatted` key holds the
Python `None` value — a null at nesting depth one, contradicting the claim
that every key at every nesting depth has a non-empty, non-null value. -/
theorem C3_counterexample :
    extract_openid_data "x" Option.none Option.none =
      Option.some [("identifier", PyVal.str "x"),
                   ("providerName", PyVal.str "OpenID"),
                   ("name", PyVal.dict [("formatted", PyVal.null)])]
    ∧ PyVal.truthy PyVal.null = false :=
  ⟨rfl, rfl⟩

/-- C3 (amended): every top-level key of the returned profile has a truthy
(non-empty, non-null) value, and inside any sub-mapping value every key other
than `formatted` is truthy as well; only the `formatted` key of the `name`
sub-mapping may hold a null or empty value. -/
theorem C3_nonempty_values (id : String) (s a : Option (List (String × String)))
    (ud : List (String × PyVal)) (h : extract_openid_data id s a = Option.some ud) :
    (∀ kv, kv ∈ ud → PyVal.truthy kv.2 = true)
    ∧ (∀ kv m, kv ∈ ud → kv.2 = PyVal.dict m →
        ∀ e, e ∈ m → e.1 ≠ "formatted" → PyVal.truthy e.2 = true) := by
  rcases (extract_eq_some_iff id s a ud).1 h with ⟨pu, hpu, rfl⟩
  constructor
  · intro kv hkv
    exact (mem_stripEmpty.1 hkv).2
  · intro kv m hkv hdict e he hne
    have hmem := (mem_stripEmpty.1 hkv).1
    rcases udEntries_mem_cases hmem with hc | hc | hc | hc | hc | hc | hc | hc | hc
    · rw [hc] at hdict
      exact absurd hdict (by simp)
    · rw [hc] at hdict
      exact absurd hdict (by simp)
    · rw [hc] at hdict
      exact absurd hdict (optToPy_ne_dict pu m)
    · rcases verifiedSeg_mem hc with ⟨-, rfl⟩
      exact absurd hdict (optToPy_ne_dict _ m)
    · rw [hc] at hdict
      have hm : m = nameDict (AttribAccess.ofOpt s a) := by
        have := PyVal.dict.inj hdict
        exact this.symm
      subst hm
      exact nameDict_mem he hne
    · rw [hc] at hdict
      exact absurd hdict (optToPy_ne_dict _ m)
    · rcases urlsSeg_mem hc with ⟨u, rfl⟩
      exact absurd hdict (by simp)
    · rw [hc] at hdict
      exact absurd hdict (optToPy_ne_dict _ m)
    · rw [hc] at hdict
      exact absurd hdict (optToPy_ne_dict _ m)

/-- C3 (witness): a concrete run of the amended claim at an input whose
profile has three keys, checked on its `providerName` entry. -/
theorem C3_witness : PyVal.truthy (PyVal.str "OpenID") = true :=
  (C3_nonempty_values "x" Option.none Option.none
      [("identifier", PyVal.str "x"), ("providerName", PyVal.str "OpenID"),
       ("name", PyVal.dict [("formatted", PyVal.null)])] rfl).1
    ("providerName", PyVal.str "OpenID")
    (List.mem_cons_of_mem _ (List.mem_cons_self _ _))

/-- C5: attribute lookup precedence of `AttribAccess.get` — a truthy AX value
wins regardless of what the registration response holds (the result does not
depend on the sreg response at all in that case), and the registration source
is consulted only when the AX value is absent or empty and the field is not
exchange-only. -/
theorem C5_ax_precedence (sr sr2 ax : List (String × String)) (k : AttrKey) (b : Bool) :
    (otruthy (alookup ax (ax_attributes k)) = true →
      AttribAccess.get ⟨sr, ax⟩ k b = alookup ax (ax_attributes k)
      ∧ AttribAccess.get ⟨sr, ax⟩ k b = AttribAccess.get ⟨sr2, ax⟩ k b)
    ∧ (otruthy (alookup ax (ax_attributes k)) = false →
      AttribAccess.get ⟨sr, ax⟩ k true = Option.none
      ∧ AttribAccess.get ⟨sr, ax⟩ k false = sregFallback sr k) := by
  constructor
  · intro h
    constructor <;> simp [AttribAccess.get, h]
  · intro h
    constructor
    · simp [AttribAccess.get, h]
    · simp [AttribAccess.get, h, sregFallback]

/-- C5 (witness): with both sources carrying an email, the AX value wins;
with no AX value, the sreg value is returned. -/
theorem C5_witness :
    AttribAccess.get ⟨[("email", "s@x")], [("http://axschema.org/contact/email", "a@x")]⟩
        AttrKey.email false = Option.some "a@x"
    ∧ AttribAccess.get ⟨[("email", "s@x")], []⟩ AttrKey.email false
      = Option.some "s@x" :=
  ⟨((C5_ax_precedence [("email", "s@x")] []
      [("http://axschema.org/contact/email", "a@x")] AttrKey.email false).1 rfl).1.trans rfl,
   ((C5_ax_precedence [("email", "s@x")] [] [] AttrKey.email false).2 rfl).2.trans rfl⟩

/-- C8: when the AX value is absent or empty and the field is not
exchange-only, the lookup translates the logical name through the fixed
rename table (`full_name` to `fullname`, `birthday` to `dob`, `postal_code`
to `postcode`, everything else unchanged) and returns the registration value
only when the translated name is a recognized registration field; otherwise
the field is absent. -/
theorem C8_sreg_fallback (sr ax : List (String × String)) (k : AttrKey)
    (h : otruthy (alookup ax (ax_attributes k)) = false) :
    AttribAccess.get ⟨sr, ax⟩ k false
      = (if elemStr sreg_data_fields (transName (sregName k)) = true
         then alookup sr (transName (sregName k)) else Option.none)
    ∧ transName "full_name" = "fullname"
    ∧ transName "birthday" = "dob"
    ∧ transName "postal_code" = "postcode"
    ∧ (∀ s2, s2 ≠ "full_name" → s2 ≠ "birthday" → s2 ≠ "postal_code" →
        transName s2 = s2) := by
  refine ⟨?_, rfl, rfl, rfl, ?_⟩
  · simp [AttribAccess.get, h]
  · intro s2 h1 h2 h3
    simp [transName, trans_dict, alookup, Ne.symm h1, Ne.symm h2, Ne.symm h3]

/-- C8 (witness): the translated `full_name` is found in the registration
response, while `web` translates to itself, is not a recognized registration
field, and is treated as absent even when the sreg response carries it. -/
theorem C8_witness :
    AttribAccess.get ⟨[("fullname", "Jane Doe")], []⟩ AttrKey.full_name false
      = Option.some "Jane Doe"
    ∧ AttribAccess.get ⟨[("web", "http://w")], []⟩ AttrKey.web false = Option.none :=
  ⟨((C8_sreg_fallback [("fullname", "Jane Doe")] [] AttrKey.full_name rfl).1).trans rfl,
   ((C8_sreg_fallback [("web", "http://w")] [] AttrKey.web rfl).1).trans rfl⟩

theorem lookup_strip_providerName (id : String) (A : AttribAccess) (pu : Option String) :
    alookup (stripEmpty (udEntries id A pu)) "providerName"
      = Option.some (PyVal.str (providerNameOf id)) := by
  simp only [udEntries, List.cons_append, List.nil_append]
  rw [alookup_stripEmpty_cons, if_neg (by decide : ¬("identifier" = "providerName")),
      alookup_stripEmpty_cons, if_pos rfl, if_pos (pn_truthy id)]

theorem lookup_strip_displayName (id : String) (A : AttribAccess) (pu : Option String) :
    alookup (stripEmpty (udEntries id A pu)) "displayName"
      = (if PyVal.truthy (optToPy (if otruthy (formattedFullName A) then formattedFullName A
            else pu)) = true
         then Option.some (optToPy (if otruthy (formattedFullName A) then formattedFullName A
            else pu))
         else Option.none) := by
  have hvk : ∀ kv : String × PyVal,
      kv ∈ verifiedSeg (providerNameOf id) A → kv.1 ≠ "displayName" := by
    intro kv hm
    rw [verifiedSeg_keys hm]
    decide
  have huk : ∀ kv : String × PyVal, kv ∈ urlsSeg A → kv.1 ≠ "displayName" := by
    intro kv hm
    rw [urlsSeg_keys hm]
    decide
  simp only [udEntries, List.cons_append, List.nil_append, List.append_assoc]
  rw [alookup_stripEmpty_cons, if_neg (by decide : ¬("identifier" = "displayName")),
      alookup_stripEmpty_cons, if_neg (by decide : ¬("providerName" = "displayName")),
      alookup_stripEmpty_cons, if_neg (by decide : ¬("preferredUsername" = "displayName")),
      alookup_strip_skip hvk,
      alookup_stripEmpty_cons, if_neg (by decide : ¬("name" = "displayName")),
      alookup_stripEmpty_cons, if_pos rfl,
      alookup_strip_skip huk,
      alookup_stripEmpty_cons, if_neg (by decide : ¬("gender" = "displayName")),
      alookup_stripEmpty_cons, if_neg (by decide : ¬("birthday" = "displayName"))]
  rfl

/-- C6: the profile's `providerName` follows the prioritized three-way
substring branch (google first, then yahoo, else OpenID), and any
`verifiedEmail` entry is present only when the provider is Google or Yahoo
and holds a non-empty value taken directly from the AX response by the email
type URI — never a registration value. -/
theorem C6_provider_inference (id : String) (s a : Option (List (String × String)))
    (ud : List (String × PyVal)) (h : extract_openid_data id s a = Option.some ud) :
    alookup ud "providerName" = Option.some (PyVal.str
      (if strContains id "google.com" = true then "Google"
       else if strContains id "yahoo.com" = true then "Yahoo" else "OpenID"))
    ∧ (∀ v, alookup ud "verifiedEmail" = Option.some v →
        (providerNameOf id = "Google" ∨ providerNameOf id = "Yahoo")
        ∧ ∃ e, v = PyVal.str e ∧ strTruthy e = true
            ∧ alookup (a.getD []) (ax_attributes AttrKey.email) = Option.some e) := by
  rcases (extract_eq_some_iff id s a ud).1 h with ⟨pu, hpu, rfl⟩
  constructor
  · exact lookup_strip_providerName id (AttribAccess.ofOpt s a) pu
  · intro v hv
    have hmm := mem_stripEmpty.1 (alookup_mem hv)
    have htr : PyVal.truthy v = true := hmm.2
    rcases udEntries_mem_cases hmm.1 with hc | hc | hc | hc | hc | hc | hc | hc | hc
    · exact absurd (congrArg Prod.fst hc)
        (by decide : ¬("verifiedEmail" = "identifier"))
    · exact absurd (congrArg Prod.fst hc)
        (by decide : ¬("verifiedEmail" = "providerName"))
    · exact absurd (congrArg Prod.fst hc)
        (by decide : ¬("verifiedEmail" = "preferredUsername"))
    · rcases verifiedSeg_mem hc with ⟨hcond, hkv⟩
      have hv2 : v = optToPy ((AttribAccess.ofOpt s a).get AttrKey.email true) :=
        congrArg Prod.snd hkv
      rcases optToPy_truthy (hv2 ▸ htr) with ⟨e, he, hse⟩
      refine ⟨hcond, e, ?_, hse, ?_⟩
      · rw [hv2, he]
        rfl
      · exact get_ax_only_eq he
    · exact absurd (congrArg Prod.fst hc)
        (by decide : ¬("verifiedEmail" = "name"))
    · exact absurd (congrArg Prod.fst hc)
        (by decide : ¬("verifiedEmail" = "displayName"))
    · rcases urlsSeg_mem hc with ⟨u, hequ⟩
      exact absurd (congrArg Prod.fst hequ)
        (by decide : ¬("verifiedEmail" = "urls"))
    · exact absurd (congrArg Prod.fst hc)
        (by decide : ¬("verifiedEmail" = "gender"))
    · exact absurd (congrArg Prod.fst hc)
        (by decide : ¬("verifiedEmail" = "birthday"))

/-- C6 (witness): a Yahoo identifier with an AX email yields `providerName`
`"Yahoo"` in the returned profile. -/
theorem C6_witness :
    alookup [("identifier", PyVal.str "yahoo.com"),
             ("providerName", PyVal.str "Yahoo"),
             ("verifiedEmail", PyVal.str "a@b.c"),
             ("name", PyVal.dict [("formatted", PyVal.null)])] "providerName"
      = Option.some (PyVal.str "Yahoo") :=
  (C6_provider_inference "yahoo.com" Option.none
      (Option.some [("http://axschema.org/contact/email", "a@b.c")])
      [("identifier", PyVal.str "yahoo.com"),
       ("providerName", PyVal.str "Yahoo"),
       ("verifiedEmail", PyVal.str "a@b.c"),
       ("name", PyVal.dict [("formatted", PyVal.null)])] rfl).1

/-- C9: the profile's `displayName` is the synthesized formatted full name
when that is non-empty, and otherwise the preferred username (present only
when the username itself is non-empty, by the final strip). -/
theorem C9_displayName (id : String) (s a : Option (List (String × String)))
    (ud : List (String × PyVal)) (pu : Option String)
    (h : extract_openid_data id s a = Option.some ud)
    (hpu : preferredUsernameResult (providerNameOf id) (AttribAccess.ofOpt s a)
      = Option.some pu) :
    (∀ f, formattedFullName (AttribAccess.ofOpt s a) = Option.some f →
      strTruthy f = true →
      alookup ud "displayName" = Option.some (PyVal.str f))
    ∧ (otruthy (formattedFullName (AttribAccess.ofOpt s a)) = false →
      alookup ud "displayName"
        = (if otruthy pu = true then Option.some (PyVal.str (pu.getD ""))
           else Option.none)) := by
  rcases (extract_eq_some_iff id s a ud).1 h with ⟨pu2, hpu2, rfl⟩
  rcases Option.some.inj (hpu2.symm.trans hpu) with rfl
  rw [lookup_strip_displayName]
  constructor
  · intro f hf hsf
    simp [hf, otruthy, optToPy, PyVal.truthy, hsf]
  · intro hot
    rw [hot]
    cases pu2 with
    | none => simp [optToPy, PyVal.truthy, otruthy]
    | some u =>
      by_cases hu : strTruthy u = true <;>
        simp [optToPy, PyVal.truthy, otruthy, hu]

/-- C9 (witness): given only a preferred username (a sreg nickname, no name
parts, no full name), `displayName` equals the preferred username. -/
theorem C9_witness :
    alookup [("identifier", PyVal.str "x"),
             ("providerName", PyVal.str "OpenID"),
             ("preferredUsername", PyVal.str "alice"),
             ("name", PyVal.dict [("formatted", PyVal.null)]),
             ("displayName", PyVal.str "alice")] "displayName"
      = Option.some (PyVal.str "alice") :=
  (C9_displayName "x" (Option.some [("nickname", "alice")]) Option.none
      [("identifier", PyVal.str "x"),
       ("providerName", PyVal.str "OpenID"),
       ("preferredUsername", PyVal.str "alice"),
       ("name", PyVal.dict [("formatted", PyVal.null)]),
       ("displayName", PyVal.str "alice")] (Option.some "alice") rfl rfl).2 rfl

/-- C10: the returned profile always contains `providerName`, and its value
is one of the three non-empty strings `"Google"`, `"Yahoo"`, `"OpenID"`. -/
theorem C10_providerName_total (id : String) (s a : Option (List (String × String)))
    (ud : List (String × PyVal)) (h : extract_openid_data id s a = Option.some ud) :
    alookup ud "providerName" = Option.some (PyVal.str (providerNameOf id))
    ∧ (providerNameOf id = "Google" ∨ providerNameOf id = "Yahoo"
       ∨ providerNameOf id = "OpenID")
    ∧ strTruthy (providerNameOf id) = true := by
  rcases (extract_eq_some_iff id s a ud).1 h with ⟨pu, hpu, rfl⟩
  refine ⟨lookup_strip_providerName id (AttribAccess.ofOpt s a) pu, ?_, pn_truthy id⟩
  unfold providerNameOf
  split
  · exact Or.inl rfl
  · split
    · exact Or.inr (Or.inl rfl)
    · exact Or.inr (Or.inr rfl)

/-- C10 (witness): the `providerName` entry of a concrete profile. -/
theorem C10_witness :
    alookup [("identifier", PyVal.str "x"), ("providerName", PyVal.str "OpenID"),
             ("name", PyVal.dict [("formatted", PyVal.null)])] "providerName"
      = Option.some (PyVal.str "OpenID")
    ∧ strTruthy "OpenID" = true :=
  match C10_providerName_total "x" Option.none Option.none
      [("identifier", PyVal.str "x"), ("providerName", PyVal.str "OpenID"),
       ("name", PyVal.dict [("formatted", PyVal.null)])] rfl with
  | ⟨h1, _, h3⟩ => ⟨h1, h3⟩

